import Mathlib

/-!
Verification of the paperef bibliographic-resolution core.

The Python sources are shallowly embedded:

* Python `str` values are Lean `String`s; character-level operations
  (`str.strip`, `str.split`, `str.lower`, regular-expression character
  classes) are modelled over `String.data : List Char`.  Python's Unicode
  case folding and `\w` word characters are modelled for the character
  ranges actually appearing in the development (ASCII plus the CJK
  ideograph block); `str.strip()` strips the ASCII whitespace characters.
* Python floats (match scores) are modelled as rationals `ℚ`.
* `time.time()` timestamps are modelled as integers `ℤ` (only their
  ordering and differences matter).
* `collections.OrderedDict` is an association list, oldest binding first;
  Python `dict` is likewise an insertion-ordered association list.
* Fallible paths (a Python function returning `None`, or raising inside a
  `try` block whose handler returns `None`) are `Option`.
-/

/-! ## Python string primitives -/

/-- Python `str.lower()` for the characters used here: ASCII letters are
mapped to lower case, everything else (digits, punctuation, CJK) is fixed. -/
def pyLowerChar (c : Char) : Char :=
  if 'A' ≤ c ∧ c ≤ 'Z' then Char.ofNat (c.toNat + 32) else c

def pyLower (s : String) : String :=
  String.mk (s.data.map pyLowerChar)

/-- The whitespace characters `str.strip()` and `str.split()` remove. -/
def pyIsSpace (c : Char) : Bool :=
  c = ' ' ∨ c = '\t' ∨ c = '\n' ∨ c = '\r' ∨ c = '\x0b' ∨ c = '\x0c'

/-- Python `str.strip()`. -/
def pyStrip (s : String) : String :=
  String.mk (((s.data.dropWhile pyIsSpace).reverse.dropWhile pyIsSpace).reverse)

/-- Python `str.strip(chars)`: remove the given characters from both ends. -/
def pyStripChars (cs : List Char) (s : String) : String :=
  String.mk (((s.data.dropWhile (cs.contains ·)).reverse.dropWhile (cs.contains ·)).reverse)

/-- Maximal runs of characters satisfying `p` (the shared engine behind
`str.split()` and `re.findall(r"\b\w+\b", s)`). -/
def splitRunsAux (p : Char → Bool) : List Char → List Char → List (List Char)
  | [], cur => if cur.isEmpty then [] else [cur.reverse]
  | c :: rest, cur =>
    if p c then splitRunsAux p rest (c :: cur)
    else if cur.isEmpty then splitRunsAux p rest []
    else cur.reverse :: splitRunsAux p rest []

/-- Python `str.split()` (whitespace split, empty pieces dropped). -/
def pySplitWs (s : String) : List String :=
  (splitRunsAux (fun c => ¬ pyIsSpace c) s.data []).map String.mk

/-- Python's `\w` word character, for the character ranges used here:
ASCII alphanumerics, the underscore, and CJK ideographs. -/
def pyIsWordChar (c : Char) : Bool :=
  c.isAlphanum ∨ c = '_' ∨ (0x4E00 ≤ c.toNat ∧ c.toNat ≤ 0x9FFF)

/-- Python `re.findall(r"\b\w+\b", s)`: the maximal word-character runs. -/
def pyWords (s : String) : List String :=
  (splitRunsAux pyIsWordChar s.data []).map String.mk

/-- Python `re.sub(r"[^a-z0-9]", "", s)`. -/
def filterAZ09 (s : String) : String :=
  String.mk (s.data.filter (fun c => ('a' ≤ c ∧ c ≤ 'z') ∨ ('0' ≤ c ∧ c ≤ '9')))

def pyReplaceAux (pat rep : List Char) : Nat → List Char → List Char
  | 0, l => l
  | _ + 1, [] => []
  | fuel + 1, c :: rest =>
    if pat ≠ [] ∧ pat.isPrefixOf (c :: rest) then
      rep ++ pyReplaceAux pat rep fuel ((c :: rest).drop pat.length)
    else c :: pyReplaceAux pat rep fuel rest

/-- Python `s.replace(pat, rep)` (for a non-empty pattern). -/
def pyReplace (pat rep s : String) : String :=
  String.mk (pyReplaceAux pat.data rep.data s.data.length s.data)

/-- Python `str(year)` for an `int`. -/
def intStr (n : Int) : String := toString n

/-! ## `paperef.core.cache_manager` — `CacheEntry` and `CacheManager`

The in-memory `OrderedDict` state of `CacheManager` is an association list
`Cache`, oldest (least recently used) binding first.  Values stored in the
cache (Python `Any`) are `PyVal`; `PyVal.none` is Python's `None`.
Disk persistence (`_load_cache` / `_save_cache`) swallows all errors and
does not affect the in-memory state, so it is not modelled. -/

inductive PyVal where
  | none
  | str (s : String)
  | int (n : Int)
deriving DecidableEq

namespace CacheManager

structure CacheEntry where
  value : PyVal
  ttl : Option Int
  created_at : Int
deriving DecidableEq

/-- `CacheEntry.is_expired`: `(time.time() - self.created_at) > self.ttl`,
and never expired when `ttl is None`. -/
def is_expired (e : CacheEntry) (now : Int) : Bool :=
  match e.ttl with
  | Option.none => false
  | Option.some t => decide (t < now - e.created_at)

abbrev Cache := List (String × CacheEntry)

def findEntry : Cache → String → Option CacheEntry
  | [], _ => Option.none
  | (k, e) :: rest, key => if k = key then Option.some e else findEntry rest key

/-- `del self._cache[key]`. -/
def eraseKey (c : Cache) (key : String) : Cache :=
  c.filter (fun p => p.1 ≠ key)

/-- `CacheManager.get`: a missing key is a miss returning `None`; an expired
entry is deleted and `None` returned; otherwise the entry is moved to the
most-recently-used end and its value returned.  The result pairs the
returned value with the cache state after the call. -/
def get (c : Cache) (key : String) (now : Int) : PyVal × Cache :=
  match findEntry c key with
  | Option.none => (PyVal.none, c)
  | Option.some e =>
    if is_expired e now then (PyVal.none, eraseKey c key)
    else (e.value, eraseKey c key ++ [(key, e)])

/-- `CacheManager.set`: `ttl=None` takes the manager's default; an existing
key is overwritten and moved to the end; a new key is appended, and if the
size then exceeds `max_size` the oldest (front) entry is evicted. -/
def set (max_size : Nat) (default_ttl : Int) (c : Cache) (key : String)
    (v : PyVal) (ttl : Option Int) (now : Int) : Cache :=
  let t := ttl.getD default_ttl
  let e : CacheEntry := ⟨v, Option.some t, now⟩
  if (findEntry c key).isSome then
    eraseKey c key ++ [(key, e)]
  else
    let c2 := c ++ [(key, e)]
    if max_size < c2.length then c2.drop 1 else c2

/-- `CacheManager.__contains__`: present and not expired. -/
def contains (c : Cache) (key : String) (now : Int) : Bool :=
  match findEntry c key with
  | Option.none => false
  | Option.some e => ¬ is_expired e now

/-- `CacheManager.__getitem__`: `get`, raising `KeyError(key)` when the
result is `None`. -/
def getitem (c : Cache) (key : String) (now : Int) : Except String PyVal × Cache :=
  let r := get c key now
  if r.1 = PyVal.none then (Except.error key, r.2) else (Except.ok r.1, r.2)

/-- `CacheManager.size` / `__len__`. -/
def size (c : Cache) : Nat := c.length

end CacheManager

namespace CacheManager

theorem findEntry_eraseKey (c : Cache) (key : String) :
    findEntry (eraseKey c key) key = Option.none := by
  induction c with
  | nil => rfl
  | cons p rest ih =>
    simp only [eraseKey, List.filter_cons, ne_eq, decide_not] at ih ⊢
    by_cases h : p.1 = key
    · simp [h, ih]
    · simp [h, findEntry, ih]

end CacheManager

/-- Claim C3: for a key present in the cache, `get` returns the stored value
(and keeps the entry, moved to the most-recently-used end) exactly when
`now - created_at ≤ ttl` or `ttl` is `None`; once `now - created_at > ttl`,
`get` returns `None` and the entry is deleted from the cache by that same
`get` call. -/
theorem cache_get_ttl_invariant (c : CacheManager.Cache) (key : String)
    (e : CacheManager.CacheEntry) (now : Int)
    (h1 : CacheManager.findEntry c key = Option.some e) :
    ((e.ttl = Option.none ∨ ∃ t, e.ttl = Option.some t ∧ now - e.created_at ≤ t) →
      CacheManager.get c key now =
        (e.value, CacheManager.eraseKey c key ++ [(key, e)])) ∧
    ((∃ t, e.ttl = Option.some t ∧ t < now - e.created_at) →
      CacheManager.get c key now = (PyVal.none, CacheManager.eraseKey c key) ∧
      CacheManager.findEntry (CacheManager.get c key now).2 key = Option.none) := by
  constructor
  · intro h
    have hexp : CacheManager.is_expired e now = false := by
      rcases h with h | ⟨t, ht, hle⟩
      · simp [CacheManager.is_expired, h]
      · simp [CacheManager.is_expired, ht]
        omega
    simp [CacheManager.get, h1, hexp]
  · rintro ⟨t, ht, hlt⟩
    have hexp : CacheManager.is_expired e now = true := by
      simp [CacheManager.is_expired, ht]
      omega
    simp [CacheManager.get, h1, hexp, CacheManager.findEntry_eraseKey]

/-- Witness for C3 at a concrete cache: a fresh entry is returned while
within its TTL, and the same entry one second past its TTL is reported
absent and removed. -/
theorem cache_get_ttl_invariant_witness :
    CacheManager.get [("k", ⟨PyVal.str "v", Option.some 10, 0⟩)] "k" 5 =
      (PyVal.str "v",
        CacheManager.eraseKey [("k", ⟨PyVal.str "v", Option.some 10, 0⟩)] "k" ++
          [("k", (⟨PyVal.str "v", Option.some 10, 0⟩ : CacheManager.CacheEntry))]) ∧
    (CacheManager.get [("k", ⟨PyVal.str "v", Option.some 10, 0⟩)] "k" 11 =
      (PyVal.none, CacheManager.eraseKey [("k", ⟨PyVal.str "v", Option.some 10, 0⟩)] "k") ∧
     CacheManager.findEntry
       (CacheManager.get [("k", ⟨PyVal.str "v", Option.some 10, 0⟩)] "k" 11).2 "k" =
       Option.none) :=
  ⟨(cache_get_ttl_invariant [("k", ⟨PyVal.str "v", Option.some 10, 0⟩)] "k"
      ⟨PyVal.str "v", Option.some 10, 0⟩ 5 (by decide)).1 (Or.inr ⟨10, rfl, by decide⟩),
   (cache_get_ttl_invariant [("k", ⟨PyVal.str "v", Option.some 10, 0⟩)] "k"
      ⟨PyVal.str "v", Option.some 10, 0⟩ 11 (by decide)).2 ⟨10, rfl, by decide⟩⟩

/-- Claim C10: `CacheManager.get` returns `None` both for an absent key and
for a present, unexpired key whose stored value is `None`, so the two are
indistinguishable through `get`; for such a key `__contains__` is `True`
while `__getitem__` raises `KeyError`. -/
theorem cache_none_value_ambiguity (c : CacheManager.Cache) (key key2 : String)
    (e : CacheManager.CacheEntry) (now : Int)
    (h1 : CacheManager.findEntry c key = Option.some e)
    (h2 : e.value = PyVal.none)
    (h3 : CacheManager.is_expired e now = false)
    (h4 : CacheManager.findEntry c key2 = Option.none) :
    (CacheManager.get c key now).1 = PyVal.none ∧
    (CacheManager.get c key2 now).1 = PyVal.none ∧
    CacheManager.contains c key now = true ∧
    (CacheManager.getitem c key now).1 = Except.error key := by
  refine ⟨?_, ?_, ?_, ?_⟩
  · simp [CacheManager.get, h1, h2, h3]
  · simp [CacheManager.get, h4]
  · simp [CacheManager.contains, h1, h3]
  · simp [CacheManager.getitem, CacheManager.get, h1, h2, h3]

/-- Witness for C10: a cache holding `None` under key "k" and nothing under
key "absent". -/
theorem cache_none_value_ambiguity_witness :
    (CacheManager.get [("k", ⟨PyVal.none, Option.some 10, 0⟩)] "k" 0).1 = PyVal.none ∧
    (CacheManager.get [("k", ⟨PyVal.none, Option.some 10, 0⟩)] "absent" 0).1 = PyVal.none ∧
    CacheManager.contains [("k", ⟨PyVal.none, Option.some 10, 0⟩)] "k" 0 = true ∧
    (CacheManager.getitem [("k", ⟨PyVal.none, Option.some 10, 0⟩)] "k" 0).1 =
      Except.error "k" :=
  cache_none_value_ambiguity [("k", ⟨PyVal.none, Option.some 10, 0⟩)] "k" "absent"
    ⟨PyVal.none, Option.some 10, 0⟩ 0 (by decide) rfl (by decide) (by decide)

namespace CacheManager

/-- The last `n` elements of a list. -/
def takeLast (n : Nat) (l : List α) : List α := l.drop (l.length - n)

/-- The cache entry `set` builds for value `v` with the default TTL at time
`now`. -/
def mkpair (default_ttl now : Int) (kv : String × PyVal) : String × CacheEntry :=
  (kv.1, ⟨kv.2, Option.some default_ttl, now⟩)

/-- Inserting a sequence of key/value pairs by repeated `set` calls (each
with `ttl=None`, hence the default TTL). -/
def insertAll (m : Nat) (dt now : Int) (c : Cache) (kvs : List (String × PyVal)) : Cache :=
  kvs.foldl (fun c kv => set m dt c kv.1 kv.2 Option.none now) c

theorem findEntry_eq_none_iff (c : Cache) (key : String) :
    findEntry c key = Option.none ↔ key ∉ c.map Prod.fst := by
  induction c with
  | nil => simp [findEntry]
  | cons p rest ih =>
    rcases p with ⟨k, e⟩
    simp only [List.map_cons, List.mem_cons, not_or]
    by_cases h : k = key
    · subst h
      simp [findEntry]
    · have hr : findEntry ((k, e) :: rest) key = findEntry rest key := by
        simp [findEntry, h]
      rw [hr, ih]
      have hne : ¬ key = k := fun hq => h hq.symm
      tauto

theorem findEntry_of_mem (c : Cache) (key : String) (e : CacheEntry)
    (hnd : (c.map Prod.fst).Nodup) (hmem : (key, e) ∈ c) :
    findEntry c key = Option.some e := by
  induction c with
  | nil => cases hmem
  | cons p rest ih =>
    rcases List.mem_cons.1 hmem with h | h
    · simp [findEntry, ← h]
    · have hne : p.1 ≠ key := by
        intro hq
        exact (List.nodup_cons.1 hnd).1
          (hq ▸ List.mem_map_of_mem Prod.fst h)
      simp [findEntry, hne, ih (List.nodup_cons.1 hnd).2 h]

theorem takeLast_length_le (n : Nat) (l : List α) : (takeLast n l).length ≤ n := by
  simp [takeLast, List.length_drop]
  omega

theorem takeLast_takeLast_append (m : Nat) (xs ys : List α) :
    takeLast m (takeLast m xs ++ ys) = takeLast m (xs ++ ys) := by
  unfold takeLast
  rw [← List.drop_append_of_le_length (by omega : xs.length - m ≤ xs.length),
    List.drop_drop]
  congr 1
  simp [List.length_drop, List.length_append]
  omega

theorem set_fresh (m : Nat) (dt now : Int) (c : Cache) (key : String) (v : PyVal)
    (hfresh : findEntry c key = Option.none) (hle : c.length ≤ m) :
    set m dt c key v Option.none now =
      takeLast m (c ++ [(key, ⟨v, Option.some dt, now⟩)]) := by
  unfold set takeLast
  rw [hfresh]
  by_cases h : m < c.length + 1
  · have hcm : c.length = m := by omega
    simp [List.length_append, hcm]
  · have h0 : c.length + 1 - m = 0 := by omega
    simp [List.length_append, h0]
    omega

theorem insertAll_fresh (m : Nat) (dt now : Int) :
    ∀ (kvs : List (String × PyVal)) (c : Cache),
      (kvs.map Prod.fst).Nodup →
      (∀ p ∈ kvs, findEntry c p.1 = Option.none) →
      c.length ≤ m →
      insertAll m dt now c kvs = takeLast m (c ++ kvs.map (mkpair dt now))
  | [], c, _, _, hle => by
    simp [insertAll, takeLast, Nat.sub_eq_zero_of_le hle]
  | kv :: kvs, c, hnd, hfresh, hle => by
    have h1 : set m dt c kv.1 kv.2 Option.none now =
        takeLast m (c ++ [mkpair dt now kv]) :=
      set_fresh m dt now c kv.1 kv.2 (hfresh kv (List.mem_cons_self kv kvs)) hle
    have hnd' : (kvs.map Prod.fst).Nodup := (List.nodup_cons.1 (by simpa using hnd)).2
    have hhead : kv.1 ∉ kvs.map Prod.fst := (List.nodup_cons.1 (by simpa using hnd)).1
    have h3 : ∀ p ∈ kvs, findEntry (takeLast m (c ++ [mkpair dt now kv])) p.1 =
        Option.none := by
      intro p hp
      rw [findEntry_eq_none_iff]
      intro hmem
      rw [takeLast, List.map_drop] at hmem
      have hsub := List.mem_of_mem_drop hmem
      rw [List.map_append] at hsub
      rcases List.mem_append.1 hsub with h | h
      · exact ((findEntry_eq_none_iff c p.1).1 (hfresh p (List.mem_cons_of_mem kv hp))) h
      · have hpk : p.1 = kv.1 := by simpa [mkpair] using h
        exact hhead (hpk ▸ List.mem_map_of_mem Prod.fst hp)
    have ih := insertAll_fresh m dt now kvs (takeLast m (c ++ [mkpair dt now kv]))
      hnd' h3 (takeLast_length_le m _)
    calc insertAll m dt now c (kv :: kvs)
        = insertAll m dt now (set m dt c kv.1 kv.2 Option.none now) kvs := by
          simp [insertAll]
      _ = takeLast m (takeLast m (c ++ [mkpair dt now kv]) ++ kvs.map (mkpair dt now)) := by
          rw [h1]; exact ih
      _ = takeLast m ((c ++ [mkpair dt now kv]) ++ kvs.map (mkpair dt now)) :=
          takeLast_takeLast_append m _ _
      _ = takeLast m (c ++ (kv :: kvs).map (mkpair dt now)) := by
          simp [List.append_assoc]

end CacheManager

/-- Claim C4: starting from an empty `CacheManager` of capacity `m`, after
inserting `m + k` distinct keys (with `k ≤ m`) via `set` at one timestamp
with a non-negative default TTL, `size()` is `m` and each of the `k`
most-recently-inserted keys is retrievable through `get`; moreover a
successful `get`, and a `set` of an existing key, move that key to the
most-recently-used end, and the entry evicted when an insert overflows the
capacity is the least-recently-used (front) one. -/
theorem cache_lru_bounded (m k : Nat) (dt now now2 : Int)
    (kvs : List (String × PyVal)) (c : CacheManager.Cache) (key : String)
    (e : CacheManager.CacheEntry) (v : PyVal)
    (hnd : (kvs.map Prod.fst).Nodup) (hlen : kvs.length = m + k)
    (hk : k ≤ m) (hm : 1 ≤ m) (hdt : 0 ≤ dt) :
    CacheManager.size (CacheManager.insertAll m dt now [] kvs) = m ∧
    (∀ p ∈ kvs.drop m,
      (CacheManager.get (CacheManager.insertAll m dt now [] kvs) p.1 now).1 = p.2) ∧
    (CacheManager.findEntry c key = Option.some e →
      CacheManager.is_expired e now2 = false →
      (CacheManager.get c key now2).2 = CacheManager.eraseKey c key ++ [(key, e)]) ∧
    (CacheManager.findEntry c key = Option.some e →
      CacheManager.set m dt c key v Option.none now =
        CacheManager.eraseKey c key ++ [(key, ⟨v, Option.some dt, now⟩)]) ∧
    (CacheManager.findEntry c key = Option.none → c.length = m →
      CacheManager.set m dt c key v Option.none now =
        c.drop 1 ++ [(key, ⟨v, Option.some dt, now⟩)]) := by
  have hfinal : CacheManager.insertAll m dt now [] kvs =
      (kvs.drop k).map (CacheManager.mkpair dt now) := by
    rw [CacheManager.insertAll_fresh m dt now kvs [] hnd (fun p _ => rfl) (by simp)]
    unfold CacheManager.takeLast
    simp only [List.nil_append, List.length_map]
    rw [hlen]
    have hmk : m + k - m = k := by omega
    rw [hmk]
    exact (List.map_drop (CacheManager.mkpair dt now) kvs k).symm
  refine ⟨?_, ?_, ?_, ?_, ?_⟩
  · rw [hfinal]
    simp [CacheManager.size, List.length_map, List.length_drop, hlen]
  · intro p hp
    have hdm : kvs.drop m = (kvs.drop k).drop (m - k) := by
      rw [List.drop_drop]
      congr 1
      omega
    rw [hdm] at hp
    have hp' : p ∈ kvs.drop k := List.mem_of_mem_drop hp
    have hmem : (p.1, (⟨p.2, Option.some dt, now⟩ : CacheManager.CacheEntry)) ∈
        (kvs.drop k).map (CacheManager.mkpair dt now) := by
      simpa [CacheManager.mkpair] using
        List.mem_map_of_mem (CacheManager.mkpair dt now) hp'
    have hndk : (((kvs.drop k).map (CacheManager.mkpair dt now)).map Prod.fst).Nodup := by
      have h1 : ((kvs.drop k).map (CacheManager.mkpair dt now)).map Prod.fst =
          (kvs.map Prod.fst).drop k := by
        rw [List.map_map]
        have h2 : Prod.fst ∘ CacheManager.mkpair dt now = (Prod.fst :
            String × PyVal → String) := by
          funext q
          rfl
        rw [h2, List.map_drop]
      rw [h1]
      exact List.Nodup.sublist (List.drop_sublist _ _) hnd
    have hfind := CacheManager.findEntry_of_mem _ _ _ hndk hmem
    have hexp : CacheManager.is_expired ⟨p.2, Option.some dt, now⟩ now = false := by
      simp [CacheManager.is_expired]
      omega
    rw [hfinal]
    rw [List.map_drop] at hfind
    simp [CacheManager.get, hfind, hexp]
  · intro hf hexp
    simp [CacheManager.get, hf, hexp]
  · intro hf
    simp [CacheManager.set, hf]
  · intro hf hcm
    have hlt : m < c.length + 1 := by omega
    simp only [CacheManager.set, hf, Option.isSome_none, Bool.false_eq_true,
      if_false, List.length_append, List.length_singleton, hlt, if_true,
      Option.getD_none]
    rw [List.drop_append_of_le_length (by omega : 1 ≤ c.length)]

/-- Witness for C4: capacity 2, three distinct inserts; the last key is
retrievable, the size is 2, and the recency/eviction equations hold on a
concrete one-entry cache. -/
theorem cache_lru_bounded_witness :
    CacheManager.size (CacheManager.insertAll 2 10 0 []
      [("a", PyVal.int 1), ("b", PyVal.int 2), ("c", PyVal.int 3)]) = 2 ∧
    (∀ p ∈ [("a", PyVal.int 1), ("b", PyVal.int 2), ("c", PyVal.int 3)].drop 2,
      (CacheManager.get (CacheManager.insertAll 2 10 0 []
        [("a", PyVal.int 1), ("b", PyVal.int 2), ("c", PyVal.int 3)]) p.1 0).1 = p.2) ∧
    (CacheManager.findEntry [("x", ⟨PyVal.int 9, Option.some 5, 0⟩)] "x" =
        Option.some ⟨PyVal.int 9, Option.some 5, 0⟩ →
      CacheManager.is_expired ⟨PyVal.int 9, Option.some 5, 0⟩ 0 = false →
      (CacheManager.get [("x", ⟨PyVal.int 9, Option.some 5, 0⟩)] "x" 0).2 =
        CacheManager.eraseKey [("x", ⟨PyVal.int 9, Option.some 5, 0⟩)] "x" ++
          [("x", ⟨PyVal.int 9, Option.some 5, 0⟩)]) ∧
    (CacheManager.findEntry [("x", ⟨PyVal.int 9, Option.some 5, 0⟩)] "x" =
        Option.some ⟨PyVal.int 9, Option.some 5, 0⟩ →
      CacheManager.set 2 10 [("x", ⟨PyVal.int 9, Option.some 5, 0⟩)] "x"
          (PyVal.int 7) Option.none 0 =
        CacheManager.eraseKey [("x", ⟨PyVal.int 9, Option.some 5, 0⟩)] "x" ++
          [("x", ⟨PyVal.int 7, Option.some 10, 0⟩)]) ∧
    (CacheManager.findEntry [("x", ⟨PyVal.int 9, Option.some 5, 0⟩)] "x" =
        Option.none →
      List.length [("x", (⟨PyVal.int 9, Option.some 5, 0⟩ : CacheManager.CacheEntry))] = 2 →
      CacheManager.set 2 10 [("x", ⟨PyVal.int 9, Option.some 5, 0⟩)] "x"
          (PyVal.int 7) Option.none 0 =
        [("x", (⟨PyVal.int 9, Option.some 5, 0⟩ : CacheManager.CacheEntry))].drop 1 ++
          [("x", ⟨PyVal.int 7, Option.some 10, 0⟩)]) :=
  cache_lru_bounded 2 1 10 0 0
    [("a", PyVal.int 1), ("b", PyVal.int 2), ("c", PyVal.int 3)]
    [("x", ⟨PyVal.int 9, Option.some 5, 0⟩)] "x"
    ⟨PyVal.int 9, Option.some 5, 0⟩ (PyVal.int 7)
    (by decide) (by decide) (by decide) (by decide) (by decide)

/-! ## More Python string primitives -/

/-- Python `s.split(sep)` for a one-character separator (empty pieces kept). -/
def splitOnCharAux (sep : Char) : List Char → List Char → List (List Char)
  | [], cur => [cur.reverse]
  | c :: rest, cur =>
    if c = sep then cur.reverse :: splitOnCharAux sep rest []
    else splitOnCharAux sep rest (c :: cur)

def pySplitOnChar (sep : Char) (s : String) : List String :=
  (splitOnCharAux sep s.data []).map String.mk

/-- Python `sep.join(xs)`. -/
def joinWith (sep : String) : List String → String
  | [] => ""
  | [x] => x
  | x :: y :: xs => x ++ sep ++ joinWith sep (y :: xs)

/-- Python `s.startswith(pre)`. -/
def pyStartsWith (s pre : String) : Bool :=
  pre.data.isPrefixOf s.data

/-- Python `s.endswith(suf)`. -/
def pyEndsWith (s suf : String) : Bool :=
  suf.data.isSuffixOf s.data

/-! ## `paperef.core.bibtex_generator` — `BibTeXGenerator`

`generate_bibtex_key_google_style`, the references-section segmentation
`_extract_references_from_markdown` (split into the segmentation loop
`raw_references` and its final noise filter), and `_search_bibtex` over the
plain-`dict` cache loaded by `load_cache`.  For `_search_bibtex` the
provider chain `BibTeXScraper.search_paper` is abstracted as the
`Option String` outcome the providers would produce for the query, and the
third component of the result counts the provider invocations the call
performed (0 or 1). -/

namespace BibTeXGenerator

/-- `BibTeXGenerator.generate_bibtex_key_google_style`. -/
def generate_bibtex_key_google_style (authors : List String) (year : Option Int)
    (title : String) : String :=
  let first_author :=
    match authors with
    | [] => "unknown"
    | a :: _ =>
      let author := pyStrip a
      let fa :=
        if author.data.contains ',' then
          pyLower (pyStrip (String.mk (author.data.takeWhile (fun c => c ≠ ','))))
        else
          let parts := pySplitWs author
          if 2 ≤ parts.length then pyLower (parts.getLastD "") else pyLower author
      filterAZ09 fa
  let year_str :=
    match year with
    | Option.some y => if y ≠ 0 then intStr y else ""
    | Option.none => ""
  let clean_title := pyStrip (String.mk (title.data.map
    (fun c => if c = '(' ∨ c = ')' ∨ c = ':' ∨ c = '-' then ' ' else c)))
  let title_words := pyWords (pyLower clean_title)
  let first_word :=
    match title_words with
    | [] => "unknown"
    | w :: _ => filterAZ09 w
  let key := first_author ++ year_str ++ first_word
  if key = "" then "unknown" else key

/-- The line loop of `_extract_references_from_markdown`: state is the
`in_references` flag, the in-progress entry `cur` and the collected
entries `refs`; a non-references `## ` heading breaks out of the loop, and
the in-progress entry is flushed after the loop. -/
def extractLoop : List String → Bool → List String → List String → List String
  | [], _, cur, refs => refs ++ (if cur.isEmpty then [] else [joinWith "\n" cur])
  | l :: ls, inRefs, cur, refs =>
    let line := pyStrip l
    if pyLower line = "## references" then extractLoop ls true cur refs
    else if inRefs then
      if pyStartsWith line "## " then
        refs ++ (if cur.isEmpty then [] else [joinWith "\n" cur])
      else if pyStartsWith line "- " then
        extractLoop ls true [line] (refs ++ (if cur.isEmpty then [] else [joinWith "\n" cur]))
      else if line = "" ∧ ¬ cur.isEmpty then
        extractLoop ls true [] (refs ++ [joinWith "\n" cur])
      else if ¬ cur.isEmpty ∧ line ≠ "" then
        extractLoop ls true (cur ++ [line]) refs
      else if cur.isEmpty ∧ line ≠ "" ∧ 20 < line.length then
        if ((pySplitWs line).take 3).any (fun w => pyEndsWith w ",") then
          extractLoop ls true [line] refs
        else extractLoop ls true cur refs
      else extractLoop ls true cur refs
    else extractLoop ls false cur refs

/-- The reference entries segmented out of the markdown, before the final
noise filter. -/
def raw_references (md : String) : List String :=
  extractLoop (pySplitOnChar '\n' md) false [] []

/-- `BibTeXGenerator._extract_references_from_markdown`: the segmented
entries, keeping only those whose stripped text is non-empty and longer
than 50 characters. -/
def extract_references_from_markdown (md : String) : List String :=
  (raw_references md).filter
    (fun r => decide (¬ pyStrip r = "") && decide (50 < (pyStrip r).length))

/-- The plain `dict` cache of `BibTeXGenerator` (`load_cache`). -/
abbrev Dict := List (String × String)

def dget : Dict → String → Option String
  | [], _ => Option.none
  | (k, v) :: rest, key => if k = key then Option.some v else dget rest key

def dset : Dict → String → String → Dict
  | [], key, v => [(key, v)]
  | (k, w) :: rest, key, v =>
    if k = key then (k, v) :: rest else (k, w) :: dset rest key v

/-- The cache key `f"{title}::{year or ''}::{doi or ''}"`. -/
def cache_key (title : String) (year : Option Int) (doi : Option String) : String :=
  title ++ "::" ++
    (match year with
     | Option.some y => if y ≠ 0 then intStr y else ""
     | Option.none => "") ++ "::" ++ doi.getD ""

/-- `BibTeXGenerator._search_bibtex`.  `provider` is the result the provider
chain would return for this query; the result is (returned value, cache
afterwards, number of provider calls made). -/
def search_bibtex (provider : Option String) (cache : Dict) (title : String)
    (year : Option Int) (doi : Option String) : Option String × Dict × Nat :=
  if title = "" then (Option.none, cache, 0)
  else
    let key := cache_key title year doi
    let call : Option String × Dict × Nat :=
      match provider with
      | Option.some b =>
        if b ≠ "" then (Option.some b, dset cache key b, 1)
        else (Option.none, dset cache key "", 1)
      | Option.none => (Option.none, dset cache key "", 1)
    match dget cache key with
    | Option.some v => if v ≠ "" then (Option.some v, cache, 0) else call
    | Option.none => call

end BibTeXGenerator

/-- Claim C5 counterexample: an author whose surname normalizes to the empty
string (no `[a-z0-9]` characters) does not collapse to `"unknown"`: the
empty surname segment is simply omitted from the key, so the claimed key
`"unknown2023deep"` is not produced. -/
theorem bibtex_key_empty_component_counterexample :
    BibTeXGenerator.generate_bibtex_key_google_style ["中村"] (Option.some 2023)
      "Deep Learning for X" = "2023deep" ∧
    BibTeXGenerator.generate_bibtex_key_google_style ["中村"] (Option.some 2023)
      "Deep Learning for X" ≠ "unknown2023deep" := by
  constructor
  · rfl
  · decide

/-- Claim C5 (amended): the key is lower-cased first-author surname + year +
first normalized title word stripped to `[a-z0-9]`, concatenated with no
separator; a missing year omits the year segment; an empty author list
yields `"unknown"` as the surname segment and a title with no extractable
words yields `"unknown"` as the word segment; a component that normalizes
to the empty string is omitted (not replaced by `"unknown"`), and only a
fully empty key collapses to `"unknown"`. -/
theorem bibtex_key_generation :
    BibTeXGenerator.generate_bibtex_key_google_style ["Doe, John"] (Option.some 2023)
      "Deep Learning for X" = "doe2023deep" ∧
    BibTeXGenerator.generate_bibtex_key_google_style ["Doe, John"] Option.none
      "Deep Learning for X" = "doedeep" ∧
    BibTeXGenerator.generate_bibtex_key_google_style [] (Option.some 2023)
      "Deep Learning for X" = "unknown2023deep" ∧
    BibTeXGenerator.generate_bibtex_key_google_style ["中村"] (Option.some 2023)
      "Deep Learning for X" = "2023deep" ∧
    BibTeXGenerator.generate_bibtex_key_google_style ["!!!"] Option.none
      "中中" = "unknown" := by
  refine ⟨rfl, rfl, rfl, rfl, rfl⟩

/-- Claim C9 (amended): an entry segmented out of the references section
appears in the output of `_extract_references_from_markdown` iff its
stripped text is non-empty and STRICTLY longer than 50 characters; the
exactly-50-character entry is discarded. -/
theorem reference_noise_filter (md r : String) :
    r ∈ BibTeXGenerator.extract_references_from_markdown md ↔
      r ∈ BibTeXGenerator.raw_references md ∧
        pyStrip r ≠ "" ∧ 50 < (pyStrip r).length := by
  simp [BibTeXGenerator.extract_references_from_markdown, List.mem_filter,
    and_assoc]

/-- Claim C9 counterexample: a reference entry whose stripped length is
exactly 50 characters is segmented out of the references section but
discarded by the noise filter, though the claim says every entry of trimmed
length at least 50 is kept. -/
theorem reference_noise_filter_counterexample :
    BibTeXGenerator.raw_references
        "## references\n- aaaaaaaaaaaaaaaaaaaaaaaaaaaaaaaaaaaaaaaaaaaaaaaa" =
      ["- aaaaaaaaaaaaaaaaaaaaaaaaaaaaaaaaaaaaaaaaaaaaaaaa"] ∧
    (pyStrip "- aaaaaaaaaaaaaaaaaaaaaaaaaaaaaaaaaaaaaaaaaaaaaaaa").length = 50 ∧
    BibTeXGenerator.extract_references_from_markdown
        "## references\n- aaaaaaaaaaaaaaaaaaaaaaaaaaaaaaaaaaaaaaaaaaaaaaaa" = [] := by
  refine ⟨rfl, rfl, rfl⟩

/-- Claim C2 (code behaviour at the failing input): a failed lookup caches
the empty string, but a second identical lookup still performs a provider
call (the truthiness test `if self.cache.get(cache_key):` treats the cached
empty marker as a miss), so the negative outcome is not served from cache;
a successful (non-empty) cached outcome, in contrast, is returned with zero
provider calls. -/
theorem search_bibtex_negative_not_cached :
    (BibTeXGenerator.search_bibtex Option.none [] "T" Option.none Option.none).1 =
      Option.none ∧
    (BibTeXGenerator.search_bibtex Option.none [] "T" Option.none Option.none).2.2 = 1 ∧
    BibTeXGenerator.dget
      (BibTeXGenerator.search_bibtex Option.none [] "T" Option.none Option.none).2.1
      (BibTeXGenerator.cache_key "T" Option.none Option.none) = Option.some "" ∧
    (BibTeXGenerator.search_bibtex Option.none
      (BibTeXGenerator.search_bibtex Option.none [] "T" Option.none Option.none).2.1
      "T" Option.none Option.none).2.2 = 1 ∧
    BibTeXGenerator.search_bibtex (Option.some "@x")
      [(BibTeXGenerator.cache_key "T" Option.none Option.none, "@x")]
      "T" Option.none Option.none =
      (Option.some "@x",
        [(BibTeXGenerator.cache_key "T" Option.none Option.none, "@x")], 0) := by
  refine ⟨rfl, rfl, rfl, rfl, rfl⟩

/-! ## `paperef.core.doi_enricher` — `DOIEnricher`

`_normalize_acm_pages` and `_update_entry_with_metadata` are modelled at
the level of the parsed BibTeX entry (the `bibtexparser` entry dict); the
surrounding parse/serialize round-trip of the BibTeX text is the identity
on that field mapping and is not modelled.  Entry fields for
`_normalize_acm_pages` are strings; for `_update_entry_with_metadata` an
entry value is an `EVal` (a string, or the list a raw Crossref
`container-title` can be), since Crossref metadata values can be lists. -/

namespace DOIEnricher

/-- The year components of the two scorers of `doi_enricher.py`
(`_find_best_match` and `_find_best_match_openalex`): the Crossref one
compares `str(item.get("published-print", {}).get("date-parts", [[None]])[0][0] or "")`
with the target year string, the OpenAlex one compares
`str(work.get("publication_year", ""))` with it; both require a truthy
(non-empty) target year and award 1.0 only on exact string equality. -/
def crossref_year_str (iy : Option Int) : String :=
  match iy with
  | Option.some n => if n ≠ 0 then intStr n else ""
  | Option.none => ""

def crossref_year_score (target : Option String) (iy : Option Int) : ℚ :=
  match target with
  | Option.some t => if t ≠ "" then (if crossref_year_str iy = t then 1 else 0) else 0
  | Option.none => 0

def openalex_year_str (wy : Option Int) : String :=
  match wy with
  | Option.some n => intStr n
  | Option.none => ""

def openalex_year_score (target : Option String) (wy : Option Int) : ℚ :=
  match target with
  | Option.some t => if t ≠ "" then (if openalex_year_str wy = t then 1 else 0) else 0
  | Option.none => 0

/-! ### `_normalize_acm_pages` -/

/-- A string-valued BibTeX entry (field, value) mapping in insertion
order. -/
abbrev SEntry := List (String × String)

def getFieldS : SEntry → String → Option String
  | [], _ => Option.none
  | (k, v) :: rest, key => if k = key then Option.some v else getFieldS rest key

def getFieldSD (e : SEntry) (key default : String) : String :=
  (getFieldS e key).getD default

def setFieldS : SEntry → String → String → SEntry
  | [], key, v => [(key, v)]
  | (k, w) :: rest, key, v =>
    if k = key then (k, v) :: rest else (k, w) :: setFieldS rest key v

def delFieldS (e : SEntry) (key : String) : SEntry :=
  e.filter (fun p => p.1 ≠ key)

def digitsToNat (ds : List Char) : Nat :=
  ds.foldl (fun n c => n * 10 + (c.toNat - 48)) 0

/-- The regular expression `^(\d+):(\d+)--(\d+):(\d+)$` of
`_normalize_acm_pages`, as the four captured numbers. -/
def parseAcm (s : String) : Option (Nat × Nat × Nat × Nat) :=
  let p1 := s.data.span Char.isDigit
  match p1.1, p1.2 with
  | [], _ => Option.none
  | _ :: _, ':' :: r2 =>
    let p2 := r2.span Char.isDigit
    match p2.1, p2.2 with
    | [], _ => Option.none
    | _ :: _, '-' :: '-' :: r4 =>
      let p3 := r4.span Char.isDigit
      match p3.1, p3.2 with
      | [], _ => Option.none
      | _ :: _, ':' :: r6 =>
        let p4 := r6.span Char.isDigit
        match p4.1, p4.2 with
        | _ :: _, [] =>
          Option.some (digitsToNat p1.1, digitsToNat p2.1, digitsToNat p3.1, digitsToNat p4.1)
        | _, _ => Option.none
      | _, _ => Option.none
    | _, _ => Option.none
  | _, _ => Option.none

/-- Whether `_normalize_acm_pages` rewrites the entry: the stripped pages
field matches the ACM pattern and both article numbers agree. -/
def acmApplies (e : SEntry) : Bool :=
  match parseAcm (pyStripChars ['\x7b', '\x7d'] (getFieldSD e "pages" "")) with
  | Option.some (a1, _, a2, _) => decide (a1 = a2)
  | Option.none => false

/-- `DOIEnricher._normalize_acm_pages` on the parsed entry: an ACM-style
pages value `N:s--N:e` with equal article numbers becomes
`articleno=N, numpages=e-s+1` and the pages field is removed; otherwise
the entry is unchanged. -/
def normalize_acm_pages (e : SEntry) : SEntry :=
  let pages := pyStripChars ['\x7b', '\x7d'] (getFieldSD e "pages" "")
  match parseAcm pages with
  | Option.some (a1, s2, a2, e2) =>
    if a1 = a2 then
      delFieldS
        (setFieldS (setFieldS e "articleno" (toString a1)) "numpages"
          (intStr ((e2 : Int) - (s2 : Int) + 1)))
        "pages"
    else e
  | Option.none => e

/-! ### `_update_entry_with_metadata` -/

inductive EVal where
  | s (v : String)
  | lst (l : List String)
deriving DecidableEq

/-- A metadata-valued BibTeX entry (field, value) mapping. -/
abbrev MEntry := List (String × EVal)

def getFieldM : MEntry → String → Option EVal
  | [], _ => Option.none
  | (k, v) :: rest, key => if k = key then Option.some v else getFieldM rest key

def setFieldM : MEntry → String → EVal → MEntry
  | [], key, v => [(key, v)]
  | (k, w) :: rest, key, v =>
    if k = key then (k, v) :: rest else (k, w) :: setFieldM rest key v

/-- Python truthiness of `entry.get(field)`: present with a non-empty
string (or non-empty list) value. -/
def evTruthy : Option EVal → Bool
  | Option.none => false
  | Option.some (EVal.s v) => decide (v ≠ "")
  | Option.some (EVal.lst l) => !l.isEmpty

/-- A Crossref author object (absent name parts are empty strings). -/
structure CRAuthor where
  given : String
  family : String
deriving DecidableEq

/-- A Crossref `container-title`: a plain string or a list of strings. -/
inductive CRContainer where
  | cstr (v : String)
  | clist (l : List String)
deriving DecidableEq

/-- The Crossref metadata record fields `_update_entry_with_metadata`
reads; an `Option.none` field is one absent from the metadata dict. -/
structure CRMeta where
  DOI : Option String
  publisher : Option String
  author : Option (List CRAuthor)
  container_title : Option CRContainer
  volume : Option String
  issue : Option String
  page : Option String
deriving DecidableEq

/-- One metadata author as the update renders it: `"Family, Given"` when
both parts are present, the single present part otherwise, skipped when
neither is present. -/
def render_author (a : CRAuthor) : Option String :=
  if a.family ≠ "" ∧ a.given ≠ "" then Option.some (a.family ++ ", " ++ a.given)
  else if a.family ≠ "" then Option.some a.family
  else if a.given ≠ "" then Option.some a.given
  else Option.none

/-- `metadata["author"][:10]` rendered and the empty renderings skipped. -/
def rendered_authors (l : List CRAuthor) : List String :=
  (l.take 10).filterMap render_author

/-- `entry.get("ENTRYTYPE", "article")` (always a string in a parsed
entry). -/
def entry_type (e : MEntry) : String :=
  match getFieldM e "ENTRYTYPE" with
  | Option.some (EVal.s t) => t
  | _ => "article"

/-- A list-valued `container-title` is replaced by its first element when
non-empty. -/
def resolve_container (c : CRContainer) : EVal :=
  match c with
  | CRContainer.cstr v => EVal.s v
  | CRContainer.clist (x :: _) => EVal.s x
  | CRContainer.clist [] => EVal.lst []

def stepDOI (e : MEntry) (m : CRMeta) : MEntry :=
  match m.DOI with
  | Option.some d =>
    if evTruthy (getFieldM e "doi") then e else setFieldM e "doi" (EVal.s d)
  | Option.none => e

def stepPublisher (e : MEntry) (m : CRMeta) : MEntry :=
  match m.publisher with
  | Option.some d =>
    if evTruthy (getFieldM e "publisher") then e else setFieldM e "publisher" (EVal.s d)
  | Option.none => e

def stepAuthor (e : MEntry) (m : CRMeta) : MEntry :=
  match m.author with
  | Option.some l =>
    if evTruthy (getFieldM e "author") then e
    else
      let authors := rendered_authors l
      if authors.isEmpty then e
      else setFieldM e "author" (EVal.s (joinWith " and " authors))
  | Option.none => e

def stepContainer (e : MEntry) (m : CRMeta) : MEntry :=
  match m.container_title with
  | Option.some c =>
    if evTruthy (getFieldM e "journal") ∨ evTruthy (getFieldM e "booktitle") then e
    else
      let v := resolve_container c
      let t := entry_type e
      if t = "article" then setFieldM e "journal" v
      else if t = "inproceedings" ∨ t = "conference" then setFieldM e "booktitle" v
      else e
  | Option.none => e

def stepVolume (e : MEntry) (m : CRMeta) : MEntry :=
  match m.volume with
  | Option.some v =>
    if evTruthy (getFieldM e "volume") then e else setFieldM e "volume" (EVal.s v)
  | Option.none => e

def stepIssue (e : MEntry) (m : CRMeta) : MEntry :=
  match m.issue with
  | Option.some v =>
    if evTruthy (getFieldM e "issue") then e else setFieldM e "issue" (EVal.s v)
  | Option.none => e

def stepPages (e : MEntry) (m : CRMeta) : MEntry :=
  match m.page with
  | Option.some v =>
    if evTruthy (getFieldM e "pages") then e else setFieldM e "pages" (EVal.s v)
  | Option.none => e

/-- `DOIEnricher._update_entry_with_metadata`: the seven fill rules applied
in source order. -/
def update_entry_with_metadata (e : MEntry) (m : CRMeta) : MEntry :=
  stepPages (stepIssue (stepVolume (stepContainer (stepAuthor
    (stepPublisher (stepDOI e m) m) m) m) m) m) m

end DOIEnricher

/-- Claim C6: an entry whose pages field is exactly `"138:1--138:12"` is
rewritten to `articleno="138"`, `numpages="12"` with the pages field
removed, and an entry whose pages field does not match the ACM pattern
with equal article numbers (such as `"100-110"`) is left entirely
unchanged. -/
theorem acm_page_normalization (e : DOIEnricher.SEntry)
    (h : DOIEnricher.acmApplies e = false) :
    DOIEnricher.normalize_acm_pages
        [("ENTRYTYPE", "article"), ("ID", "x"), ("pages", "138:1--138:12")] =
      [("ENTRYTYPE", "article"), ("ID", "x"), ("articleno", "138"), ("numpages", "12")] ∧
    DOIEnricher.normalize_acm_pages e = e := by
  refine ⟨rfl, ?_⟩
  unfold DOIEnricher.acmApplies at h
  unfold DOIEnricher.normalize_acm_pages
  cases hp : DOIEnricher.parseAcm
      (pyStripChars ['\x7b', '\x7d'] (DOIEnricher.getFieldSD e "pages" "")) with
  | none => simp [hp]
  | some q =>
    obtain ⟨a1, s2, a2, e2⟩ := q
    rw [hp] at h
    simp only [decide_eq_false_iff_not] at h
    simp [hp, h]

/-- Witness for C6 at the concrete non-matching entry with pages
`"100-110"`. -/
theorem acm_page_normalization_witness :
    DOIEnricher.normalize_acm_pages
        [("ENTRYTYPE", "article"), ("ID", "x"), ("pages", "138:1--138:12")] =
      [("ENTRYTYPE", "article"), ("ID", "x"), ("articleno", "138"), ("numpages", "12")] ∧
    DOIEnricher.normalize_acm_pages [("pages", "100-110")] = [("pages", "100-110")] :=
  acm_page_normalization [("pages", "100-110")] (by decide)

namespace DOIEnricher

theorem getFieldM_setFieldM_self (e : MEntry) (k : String) (v : EVal) :
    getFieldM (setFieldM e k v) k = Option.some v := by
  induction e with
  | nil => simp [setFieldM, getFieldM]
  | cons p rest ih =>
    rcases p with ⟨k', w⟩
    by_cases h : k' = k
    · simp [setFieldM, getFieldM, h]
    · simp [setFieldM, getFieldM, h, ih]

theorem getFieldM_setFieldM_ne (e : MEntry) (k g : String) (v : EVal)
    (h : g ≠ k) :
    getFieldM (setFieldM e k v) g = getFieldM e g := by
  have hne : ¬ k = g := fun hq => h hq.symm
  induction e with
  | nil => simp [setFieldM, getFieldM, hne]
  | cons p rest ih =>
    rcases p with ⟨k', w⟩
    by_cases h' : k' = k
    · subst h'
      simp [setFieldM, getFieldM, hne]
    · by_cases h2 : k' = g
      · simp [setFieldM, getFieldM, h', h2, hne, h]
      · simp [setFieldM, getFieldM, h', h2, ih]

theorem stepDOI_pres (e : MEntry) (m : CRMeta) (g : String) (h : g ≠ "doi") :
    getFieldM (stepDOI e m) g = getFieldM e g := by
  cases hm : m.DOI with
  | none => simp [stepDOI, hm]
  | some d =>
    by_cases ht : evTruthy (getFieldM e "doi") = true
    · simp [stepDOI, hm, ht]
    · simp [stepDOI, hm, ht, getFieldM_setFieldM_ne e "doi" g (EVal.s d) h]

theorem stepPublisher_pres (e : MEntry) (m : CRMeta) (g : String)
    (h : g ≠ "publisher") :
    getFieldM (stepPublisher e m) g = getFieldM e g := by
  cases hm : m.publisher with
  | none => simp [stepPublisher, hm]
  | some d =>
    by_cases ht : evTruthy (getFieldM e "publisher") = true
    · simp [stepPublisher, hm, ht]
    · simp [stepPublisher, hm, ht, getFieldM_setFieldM_ne e "publisher" g (EVal.s d) h]

theorem stepAuthor_pres (e : MEntry) (m : CRMeta) (g : String)
    (h : g ≠ "author") :
    getFieldM (stepAuthor e m) g = getFieldM e g := by
  cases hm : m.author with
  | none => simp [stepAuthor, hm]
  | some l =>
    by_cases ht : evTruthy (getFieldM e "author") = true
    · simp [stepAuthor, hm, ht]
    · by_cases he : (rendered_authors l).isEmpty
      · simp [stepAuthor, hm, ht, he]
      · simp [stepAuthor, hm, ht, he,
          getFieldM_setFieldM_ne e "author" g (EVal.s (joinWith " and " (rendered_authors l))) h]

theorem stepContainer_pres (e : MEntry) (m : CRMeta) (g : String)
    (h1 : g ≠ "journal") (h2 : g ≠ "booktitle") :
    getFieldM (stepContainer e m) g = getFieldM e g := by
  cases hm : m.container_title with
  | none => simp [stepContainer, hm]
  | some c =>
    by_cases hg : evTruthy (getFieldM e "journal") = true ∨
        evTruthy (getFieldM e "booktitle") = true
    · simp [stepContainer, hm, hg]
    · by_cases ha : entry_type e = "article"
      · simp [stepContainer, hm, hg, ha,
          getFieldM_setFieldM_ne e "journal" g (resolve_container c) h1]
      · by_cases hb : entry_type e = "inproceedings" ∨ entry_type e = "conference"
        · simp [stepContainer, hm, hg, ha, hb,
            getFieldM_setFieldM_ne e "booktitle" g (resolve_container c) h2]
        · simp [stepContainer, hm, hg, ha, hb]

theorem stepVolume_pres (e : MEntry) (m : CRMeta) (g : String)
    (h : g ≠ "volume") :
    getFieldM (stepVolume e m) g = getFieldM e g := by
  cases hm : m.volume with
  | none => simp [stepVolume, hm]
  | some v =>
    by_cases ht : evTruthy (getFieldM e "volume") = true
    · simp [stepVolume, hm, ht]
    · simp [stepVolume, hm, ht, getFieldM_setFieldM_ne e "volume" g (EVal.s v) h]

theorem stepIssue_pres (e : MEntry) (m : CRMeta) (g : String)
    (h : g ≠ "issue") :
    getFieldM (stepIssue e m) g = getFieldM e g := by
  cases hm : m.issue with
  | none => simp [stepIssue, hm]
  | some v =>
    by_cases ht : evTruthy (getFieldM e "issue") = true
    · simp [stepIssue, hm, ht]
    · simp [stepIssue, hm, ht, getFieldM_setFieldM_ne e "issue" g (EVal.s v) h]

theorem stepPages_pres (e : MEntry) (m : CRMeta) (g : String)
    (h : g ≠ "pages") :
    getFieldM (stepPages e m) g = getFieldM e g := by
  cases hm : m.page with
  | none => simp [stepPages, hm]
  | some v =>
    by_cases ht : evTruthy (getFieldM e "pages") = true
    · simp [stepPages, hm, ht]
    · simp [stepPages, hm, ht, getFieldM_setFieldM_ne e "pages" g (EVal.s v) h]

theorem stepDOI_skip (e : MEntry) (m : CRMeta)
    (h : evTruthy (getFieldM e "doi") = true) : stepDOI e m = e := by
  cases hm : m.DOI with
  | none => simp [stepDOI, hm]
  | some d => simp [stepDOI, hm, h]

theorem stepPublisher_skip (e : MEntry) (m : CRMeta)
    (h : evTruthy (getFieldM e "publisher") = true) : stepPublisher e m = e := by
  cases hm : m.publisher with
  | none => simp [stepPublisher, hm]
  | some d => simp [stepPublisher, hm, h]

theorem stepAuthor_skip (e : MEntry) (m : CRMeta)
    (h : evTruthy (getFieldM e "author") = true) : stepAuthor e m = e := by
  cases hm : m.author with
  | none => simp [stepAuthor, hm]
  | some l => simp [stepAuthor, hm, h]

theorem stepContainer_skip (e : MEntry) (m : CRMeta)
    (h : evTruthy (getFieldM e "journal") = true ∨
         evTruthy (getFieldM e "booktitle") = true) : stepContainer e m = e := by
  cases hm : m.container_title with
  | none => simp [stepContainer, hm]
  | some c => simp [stepContainer, hm, h]

theorem stepVolume_skip (e : MEntry) (m : CRMeta)
    (h : evTruthy (getFieldM e "volume") = true) : stepVolume e m = e := by
  cases hm : m.volume with
  | none => simp [stepVolume, hm]
  | some v => simp [stepVolume, hm, h]

theorem stepIssue_skip (e : MEntry) (m : CRMeta)
    (h : evTruthy (getFieldM e "issue") = true) : stepIssue e m = e := by
  cases hm : m.issue with
  | none => simp [stepIssue, hm]
  | some v => simp [stepIssue, hm, h]

theorem stepPages_skip (e : MEntry) (m : CRMeta)
    (h : evTruthy (getFieldM e "pages") = true) : stepPages e m = e := by
  cases hm : m.page with
  | none => simp [stepPages, hm]
  | some v => simp [stepPages, hm, h]

theorem stepAuthor_fill (e : MEntry) (m : CRMeta) (l : List CRAuthor)
    (hm : m.author = Option.some l)
    (ht : evTruthy (getFieldM e "author") = false)
    (hr : ¬ (rendered_authors l).isEmpty) :
    stepAuthor e m =
      setFieldM e "author" (EVal.s (joinWith " and " (rendered_authors l))) := by
  simp [stepAuthor, hm, ht, hr]

theorem stepContainer_fillJ (e : MEntry) (m : CRMeta) (c : CRContainer)
    (hm : m.container_title = Option.some c)
    (hJ : evTruthy (getFieldM e "journal") = false)
    (hB : evTruthy (getFieldM e "booktitle") = false)
    (htype : entry_type e = "article") :
    stepContainer e m = setFieldM e "journal" (resolve_container c) := by
  simp [stepContainer, hm, hJ, hB, htype]

theorem stepContainer_fillB (e : MEntry) (m : CRMeta) (c : CRContainer)
    (hm : m.container_title = Option.some c)
    (hJ : evTruthy (getFieldM e "journal") = false)
    (hB : evTruthy (getFieldM e "booktitle") = false)
    (htype : entry_type e = "inproceedings" ∨ entry_type e = "conference") :
    stepContainer e m = setFieldM e "booktitle" (resolve_container c) := by
  have hart : ¬ entry_type e = "article" := by
    rcases htype with h | h <;> rw [h] <;> decide
  simp [stepContainer, hm, hJ, hB, hart, htype]

end DOIEnricher

namespace DOIEnricher

/-- Claim C7: `_update_entry_with_metadata` only fills empty fields — every
listed field (doi, publisher, author, journal, booktitle, volume, issue,
pages) that already has a truthy (non-empty) value is left unchanged; when
the author field is filled it is built from at most the first 10 metadata
authors, rendered (`"Family, Given"` when both parts are present) and
joined by `" and "`; the container title goes to `journal` for
article-type entries and to `booktitle` for inproceedings/conference-type
entries. -/
theorem enrichment_only_fills_empty (e1 e2 : MEntry) (m1 m2 : CRMeta)
    (f : String) (l : List CRAuthor) (c : CRContainer)
    (hf : f ∈ ["doi", "publisher", "author", "journal", "booktitle",
      "volume", "issue", "pages"])
    (ht : evTruthy (getFieldM e1 f) = true)
    (hA : evTruthy (getFieldM e2 "author") = false)
    (hJ : evTruthy (getFieldM e2 "journal") = false)
    (hB : evTruthy (getFieldM e2 "booktitle") = false)
    (hmA : m2.author = Option.some l)
    (hR : ¬ (rendered_authors l).isEmpty)
    (hmC : m2.container_title = Option.some c) :
    getFieldM (update_entry_with_metadata e1 m1) f = getFieldM e1 f ∧
    getFieldM (update_entry_with_metadata e2 m2) "author" =
      Option.some (EVal.s (joinWith " and " (rendered_authors l))) ∧
    (entry_type e2 = "article" →
      getFieldM (update_entry_with_metadata e2 m2) "journal" =
        Option.some (resolve_container c)) ∧
    (entry_type e2 = "inproceedings" ∨ entry_type e2 = "conference" →
      getFieldM (update_entry_with_metadata e2 m2) "booktitle" =
        Option.some (resolve_container c)) := by
  refine ⟨?_, ?_, ?_, ?_⟩
  · -- frame: a truthy field is never overwritten
    simp only [List.mem_cons, List.mem_singleton, List.not_mem_nil, or_false] at hf
    unfold update_entry_with_metadata
    rcases hf with rfl | rfl | rfl | rfl | rfl | rfl | rfl | rfl
    · rw [stepPages_pres _ _ _ (by decide), stepIssue_pres _ _ _ (by decide),
        stepVolume_pres _ _ _ (by decide),
        stepContainer_pres _ _ _ (by decide) (by decide),
        stepAuthor_pres _ _ _ (by decide), stepPublisher_pres _ _ _ (by decide),
        stepDOI_skip _ _ ht]
    · rw [stepPages_pres _ _ _ (by decide), stepIssue_pres _ _ _ (by decide),
        stepVolume_pres _ _ _ (by decide),
        stepContainer_pres _ _ _ (by decide) (by decide),
        stepAuthor_pres _ _ _ (by decide),
        stepPublisher_skip _ _ (by
          rw [stepDOI_pres _ _ _ (by decide)]
          exact ht),
        stepDOI_pres _ _ _ (by decide)]
    · rw [stepPages_pres _ _ _ (by decide), stepIssue_pres _ _ _ (by decide),
        stepVolume_pres _ _ _ (by decide),
        stepContainer_pres _ _ _ (by decide) (by decide),
        stepAuthor_skip _ _ (by
          rw [stepPublisher_pres _ _ _ (by decide), stepDOI_pres _ _ _ (by decide)]
          exact ht),
        stepPublisher_pres _ _ _ (by decide), stepDOI_pres _ _ _ (by decide)]
    · rw [stepPages_pres _ _ _ (by decide), stepIssue_pres _ _ _ (by decide),
        stepVolume_pres _ _ _ (by decide),
        stepContainer_skip _ _ (Or.inl (by
          rw [stepAuthor_pres _ _ _ (by decide), stepPublisher_pres _ _ _ (by decide),
            stepDOI_pres _ _ _ (by decide)]
          exact ht)),
        stepAuthor_pres _ _ _ (by decide), stepPublisher_pres _ _ _ (by decide),
        stepDOI_pres _ _ _ (by decide)]
    · rw [stepPages_pres _ _ _ (by decide), stepIssue_pres _ _ _ (by decide),
        stepVolume_pres _ _ _ (by decide),
        stepContainer_skip _ _ (Or.inr (by
          rw [stepAuthor_pres _ _ _ (by decide), stepPublisher_pres _ _ _ (by decide),
            stepDOI_pres _ _ _ (by decide)]
          exact ht)),
        stepAuthor_pres _ _ _ (by decide), stepPublisher_pres _ _ _ (by decide),
        stepDOI_pres _ _ _ (by decide)]
    · rw [stepPages_pres _ _ _ (by decide), stepIssue_pres _ _ _ (by decide),
        stepVolume_skip _ _ (by
          rw [stepContainer_pres _ _ _ (by decide) (by decide),
            stepAuthor_pres _ _ _ (by decide), stepPublisher_pres _ _ _ (by decide),
            stepDOI_pres _ _ _ (by decide)]
          exact ht),
        stepContainer_pres _ _ _ (by decide) (by decide),
        stepAuthor_pres _ _ _ (by decide), stepPublisher_pres _ _ _ (by decide),
        stepDOI_pres _ _ _ (by decide)]
    · rw [stepPages_pres _ _ _ (by decide),
        stepIssue_skip _ _ (by
          rw [stepVolume_pres _ _ _ (by decide),
            stepContainer_pres _ _ _ (by decide) (by decide),
            stepAuthor_pres _ _ _ (by decide), stepPublisher_pres _ _ _ (by decide),
            stepDOI_pres _ _ _ (by decide)]
          exact ht),
        stepVolume_pres _ _ _ (by decide),
        stepContainer_pres _ _ _ (by decide) (by decide),
        stepAuthor_pres _ _ _ (by decide), stepPublisher_pres _ _ _ (by decide),
        stepDOI_pres _ _ _ (by decide)]
    · rw [stepPages_skip _ _ (by
          rw [stepIssue_pres _ _ _ (by decide), stepVolume_pres _ _ _ (by decide),
            stepContainer_pres _ _ _ (by decide) (by decide),
            stepAuthor_pres _ _ _ (by decide), stepPublisher_pres _ _ _ (by decide),
            stepDOI_pres _ _ _ (by decide)]
          exact ht),
        stepIssue_pres _ _ _ (by decide), stepVolume_pres _ _ _ (by decide),
        stepContainer_pres _ _ _ (by decide) (by decide),
        stepAuthor_pres _ _ _ (by decide), stepPublisher_pres _ _ _ (by decide),
        stepDOI_pres _ _ _ (by decide)]
  · -- the author fill
    have hA1 : evTruthy (getFieldM (stepPublisher (stepDOI e2 m2) m2) "author") = false := by
      rw [stepPublisher_pres _ _ _ (by decide), stepDOI_pres _ _ _ (by decide)]
      exact hA
    unfold update_entry_with_metadata
    rw [stepAuthor_fill _ _ l hmA hA1 hR,
      stepPages_pres _ _ _ (by decide), stepIssue_pres _ _ _ (by decide),
      stepVolume_pres _ _ _ (by decide),
      stepContainer_pres _ _ _ (by decide) (by decide),
      getFieldM_setFieldM_self]
  · -- container title → journal for article entries
    intro htype
    have hE : getFieldM (stepAuthor (stepPublisher (stepDOI e2 m2) m2) m2) "ENTRYTYPE" =
        getFieldM e2 "ENTRYTYPE" := by
      rw [stepAuthor_pres _ _ _ (by decide), stepPublisher_pres _ _ _ (by decide),
        stepDOI_pres _ _ _ (by decide)]
    have htype3 : entry_type (stepAuthor (stepPublisher (stepDOI e2 m2) m2) m2) =
        "article" := by
      unfold entry_type at htype ⊢
      rw [hE]
      exact htype
    have hJ3 : evTruthy (getFieldM (stepAuthor (stepPublisher (stepDOI e2 m2) m2) m2)
        "journal") = false := by
      rw [stepAuthor_pres _ _ _ (by decide), stepPublisher_pres _ _ _ (by decide),
        stepDOI_pres _ _ _ (by decide)]
      exact hJ
    have hB3 : evTruthy (getFieldM (stepAuthor (stepPublisher (stepDOI e2 m2) m2) m2)
        "booktitle") = false := by
      rw [stepAuthor_pres _ _ _ (by decide), stepPublisher_pres _ _ _ (by decide),
        stepDOI_pres _ _ _ (by decide)]
      exact hB
    unfold update_entry_with_metadata
    rw [stepContainer_fillJ _ _ c hmC hJ3 hB3 htype3,
      stepPages_pres _ _ _ (by decide), stepIssue_pres _ _ _ (by decide),
      stepVolume_pres _ _ _ (by decide), getFieldM_setFieldM_self]
  · -- container title → booktitle for inproceedings/conference entries
    intro htype
    have hE : getFieldM (stepAuthor (stepPublisher (stepDOI e2 m2) m2) m2) "ENTRYTYPE" =
        getFieldM e2 "ENTRYTYPE" := by
      rw [stepAuthor_pres _ _ _ (by decide), stepPublisher_pres _ _ _ (by decide),
        stepDOI_pres _ _ _ (by decide)]
    have htype3 : entry_type (stepAuthor (stepPublisher (stepDOI e2 m2) m2) m2) =
        "inproceedings" ∨
        entry_type (stepAuthor (stepPublisher (stepDOI e2 m2) m2) m2) = "conference" := by
      unfold entry_type at htype ⊢
      rw [hE]
      exact htype
    have hJ3 : evTruthy (getFieldM (stepAuthor (stepPublisher (stepDOI e2 m2) m2) m2)
        "journal") = false := by
      rw [stepAuthor_pres _ _ _ (by decide), stepPublisher_pres _ _ _ (by decide),
        stepDOI_pres _ _ _ (by decide)]
      exact hJ
    have hB3 : evTruthy (getFieldM (stepAuthor (stepPublisher (stepDOI e2 m2) m2) m2)
        "booktitle") = false := by
      rw [stepAuthor_pres _ _ _ (by decide), stepPublisher_pres _ _ _ (by decide),
        stepDOI_pres _ _ _ (by decide)]
      exact hB
    unfold update_entry_with_metadata
    rw [stepContainer_fillB _ _ c hmC hJ3 hB3 htype3,
      stepPages_pres _ _ _ (by decide), stepIssue_pres _ _ _ (by decide),
      stepVolume_pres _ _ _ (by decide), getFieldM_setFieldM_self]

/-- Witness for C7: an entry whose doi is already set keeps it; an empty
article-type entry gets the rendered author list and the container title
in `journal`. -/
theorem enrichment_only_fills_empty_witness :
    getFieldM (update_entry_with_metadata [("doi", EVal.s "10.1/x")]
        ⟨Option.some "10.2/y", Option.some "ACM", Option.some [⟨"John", "Doe"⟩],
         Option.some (CRContainer.clist ["Proc"]), Option.some "7",
         Option.some "3", Option.some "1--9"⟩) "doi" =
      getFieldM [("doi", EVal.s "10.1/x")] "doi" ∧
    getFieldM (update_entry_with_metadata [("ENTRYTYPE", EVal.s "article")]
        ⟨Option.some "10.2/y", Option.some "ACM", Option.some [⟨"John", "Doe"⟩],
         Option.some (CRContainer.clist ["Proc"]), Option.some "7",
         Option.some "3", Option.some "1--9"⟩) "author" =
      Option.some (EVal.s (joinWith " and " (rendered_authors [⟨"John", "Doe"⟩]))) ∧
    (entry_type [("ENTRYTYPE", EVal.s "article")] = "article" →
      getFieldM (update_entry_with_metadata [("ENTRYTYPE", EVal.s "article")]
          ⟨Option.some "10.2/y", Option.some "ACM", Option.some [⟨"John", "Doe"⟩],
           Option.some (CRContainer.clist ["Proc"]), Option.some "7",
           Option.some "3", Option.some "1--9"⟩) "journal" =
        Option.some (resolve_container (CRContainer.clist ["Proc"]))) ∧
    (entry_type [("ENTRYTYPE", EVal.s "article")] = "inproceedings" ∨
        entry_type [("ENTRYTYPE", EVal.s "article")] = "conference" →
      getFieldM (update_entry_with_metadata [("ENTRYTYPE", EVal.s "article")]
          ⟨Option.some "10.2/y", Option.some "ACM", Option.some [⟨"John", "Doe"⟩],
           Option.some (CRContainer.clist ["Proc"]), Option.some "7",
           Option.some "3", Option.some "1--9"⟩) "booktitle" =
        Option.some (resolve_container (CRContainer.clist ["Proc"]))) :=
  enrichment_only_fills_empty [("doi", EVal.s "10.1/x")] [("ENTRYTYPE", EVal.s "article")]
    ⟨Option.some "10.2/y", Option.some "ACM", Option.some [⟨"John", "Doe"⟩],
     Option.some (CRContainer.clist ["Proc"]), Option.some "7",
     Option.some "3", Option.some "1--9"⟩
    ⟨Option.some "10.2/y", Option.some "ACM", Option.some [⟨"John", "Doe"⟩],
     Option.some (CRContainer.clist ["Proc"]), Option.some "7",
     Option.some "3", Option.some "1--9"⟩
    "doi" [⟨"John", "Doe"⟩] (CRContainer.clist ["Proc"])
    (by decide) (by decide) (by decide) (by decide) (by decide) rfl (by decide) rfl

end DOIEnricher

/-! ## `paperef.bibtex.scholar_scraper` — `OpenAlexScraper`

`search_paper`'s title-search branch is modelled from the parsed provider
response onward: `search_paper_title` receives the list of works the API
returned and produces the BibTeX string the call returns (`Option.none`
models the `return None` paths).  `difflib.SequenceMatcher.ratio()` is
modelled by its published algorithm (total size of the recursively chosen
longest matching blocks, doubled and divided by the total length); the
autojunk heuristic only activates for sequences of at least 200
characters and no sequence considered here is that long, so it is not
modelled. -/

namespace OpenAlexScraper

/-- One row step of `difflib`'s `find_longest_match` dynamic programming:
`old` holds, for each position `j` of `b`, the length of the longest match
ending at the previous `a`-position and `j`. -/
def flmAux (b : List Char) : List Char → Nat → List Nat → Nat × Nat × Nat → Nat × Nat × Nat
  | [], _, _, best => best
  | c :: rest, i, old, best =>
    let row := b.enum.map (fun p =>
      if p.2 = c then (if p.1 = 0 then 0 else old.getD (p.1 - 1) 0) + 1 else 0)
    let best2 := row.enum.foldl
      (fun acc p => if acc.2.2 < p.2 then (i + 1 - p.2, p.1 + 1 - p.2, p.2) else acc)
      best
    flmAux b rest (i + 1) row best2

/-- `SequenceMatcher.find_longest_match` over the full ranges: the first
longest matching block `(i, j, size)`, scanning `a`-positions then
`b`-positions in ascending order and keeping the first strictly longest
match. -/
def find_longest_match (a b : List Char) : Nat × Nat × Nat :=
  flmAux b a 0 (b.map (fun _ => 0)) (0, 0, 0)

/-- The total size of `SequenceMatcher.get_matching_blocks`: the longest
match is taken and the two remaining sides are processed recursively.  The
fuel bounds the recursion depth; `a.length + b.length` is always
sufficient since each recursive call strictly shrinks the total length. -/
def matchingSizeAux : Nat → List Char → List Char → Nat
  | 0, _, _ => 0
  | fuel + 1, a, b =>
    let r := find_longest_match a b
    if r.2.2 = 0 then 0
    else
      matchingSizeAux fuel (a.take r.1) (b.take r.2.1) + r.2.2 +
        matchingSizeAux fuel (a.drop (r.1 + r.2.2)) (b.drop (r.2.1 + r.2.2))

def sm_matching_total (a b : List Char) : Nat :=
  matchingSizeAux (a.length + b.length) a b

/-- `SequenceMatcher(None, a, b).ratio()`: `2.0 * M / T` (and 1.0 for two
empty sequences), as a rational. -/
def sm_similarity (a b : List Char) : ℚ :=
  if a.length + b.length = 0 then 1
  else 2 * (sm_matching_total a b : ℚ) / ((a.length + b.length : Nat) : ℚ)

/-- The year component of `OpenAlexScraper._find_best_match`:
`1.0 if (target_year and work_year and abs(work_year - target_year) <= 1) else 0.0`
(Python truthiness: a year of `None` or `0` fails the test). -/
def year_score (target work : Option Int) : ℚ :=
  match target, work with
  | Option.some t, Option.some w =>
    if t ≠ 0 ∧ w ≠ 0 ∧ (w - t).natAbs ≤ 1 then 1 else 0
  | _, _ => 0

structure Author where
  display_name : String
  first_name : String
  last_name : String
deriving DecidableEq

structure Source where
  display_name : String
  host_organization_name : String
  host_organization : String
deriving DecidableEq

structure Location where
  source : Option Source
deriving DecidableEq

/-- The `biblio` object of an OpenAlex work (absent parts are empty
strings). -/
structure BiblioRecord where
  first_page : String
  last_page : String
  volume : String
  issue : String
deriving DecidableEq

/-- An OpenAlex work as `search_paper` reads it (the `select`ed fields);
`bib_data` is the work's `biblio` object. -/
structure Work where
  title : String
  authorships : List Author
  publication_year : Option Int
  doi : Option String
  primary_location : Option Location
  type : String
  locations : List Location
  bib_data : BiblioRecord
deriving DecidableEq

/-- The combined score `title_similarity * 0.8 + year_score * 0.2` of
`OpenAlexScraper._find_best_match`. -/
def work_score (target_title : String) (target_year : Option Int) (w : Work) : ℚ :=
  sm_similarity (pyLower target_title).data (pyLower w.title).data * (8/10) +
    year_score target_year w.publication_year * (2/10)

/-- One iteration of the best-candidate loop: the candidate replaces the
running best exactly when its score is strictly greater. -/
def fbmStep (title : String) (year : Option Int) (acc : Option Work × ℚ) (w : Work) :
    Option Work × ℚ :=
  if acc.2 < work_score title year w then (Option.some w, work_score title year w) else acc

/-- `OpenAlexScraper._find_best_match`: the best-scoring work, returned
only when its score exceeds 0.6. -/
def find_best_match (works : List Work) (title : String) (year : Option Int) :
    Option Work :=
  let r := works.foldl (fbmStep title year) (Option.none, 0)
  if 6/10 < r.2 then r.1 else Option.none

/-- One authorship rendered as `_generate_bibtex_from_work` renders it
(an author with neither a display name nor a last name contributes
nothing). -/
def format_author (a : Author) : List String :=
  if a.display_name ≠ "" then
    if a.display_name.data.contains ',' then [a.display_name]
    else
      let parts := pySplitWs a.display_name
      if 2 ≤ parts.length then
        [parts.getLastD "" ++ ", " ++ joinWith " " parts.dropLast]
      else [a.display_name]
  else
    if a.last_name ≠ "" ∧ a.first_name ≠ "" then [a.last_name ++ ", " ++ a.first_name]
    else if a.last_name ≠ "" then [a.last_name]
    else []

/-- `OpenAlexScraper._map_work_type_to_bibtex`. -/
def map_work_type (t : String) : String :=
  if t = "article" then "article"
  else if t = "journal-article" then "article"
  else if t = "book-chapter" then "inbook"
  else if t = "book" then "book"
  else if t = "conference-paper" then "inproceedings"
  else if t = "conference" then "inproceedings"
  else if t = "proceedings-article" then "inproceedings"
  else if t = "dissertation" then "phdthesis"
  else if t = "report" then "techreport"
  else if t = "preprint" then "unpublished"
  else "article"

/-- `OpenAlexScraper._generate_bibtex_key`; `Option.none` models the
`IndexError` (caught by the caller) raised by `authors[0].split()[-1]`
when the first author is whitespace-only. -/
def generate_key (authors : List String) (year : Option Int) (title : String) :
    Option String :=
  let fa :=
    match authors with
    | [] => Option.some "unknown"
    | a :: _ =>
      match (pySplitWs a).getLast? with
      | Option.none => Option.none
      | Option.some w => Option.some (pyLower w)
  match fa with
  | Option.none => Option.none
  | Option.some first_author =>
    let clean_title := pyStrip (String.mk (title.data.map
      (fun c => if c = '(' ∨ c = ')' ∨ c = ':' ∨ c = '-' then ' ' else c)))
    let title_words := pyWords (pyLower clean_title)
    let first_word :=
      filterAZ09 (match title_words with
        | [] => "unknown"
        | w :: _ => w)
    let year_str :=
      match year with
      | Option.some y => if y ≠ 0 then intStr y else ""
      | Option.none => ""
    Option.some (joinWith "" ([first_author, year_str, first_word].filter (· ≠ "")))

/-- `OpenAlexScraper._generate_bibtex_from_work`. -/
def generate_bibtex_from_work (w : Work) : Option String :=
  if w.title = "" then Option.none
  else
    let authors0 := (w.authorships.map format_author).flatten
    let authors := if authors0.isEmpty then ["Unknown"] else authors0
    let doiStr :=
      match w.doi with
      | Option.some d => if d ≠ "" then pyReplace "https://doi.org/" "" d else ""
      | Option.none => ""
    let vp1 : String × String :=
      match w.primary_location with
      | Option.some loc =>
        match loc.source with
        | Option.some src =>
          (src.display_name,
            if src.host_organization_name ≠ "" then src.host_organization_name
            else src.host_organization)
        | Option.none => ("", "")
      | Option.none => ("", "")
    let vp : String × String :=
      if vp1.1 = "" then
        match w.locations with
        | loc :: _ =>
          match loc.source with
          | Option.some src =>
            (src.display_name,
              if src.host_organization_name ≠ "" then src.host_organization_name
              else src.host_organization)
          | Option.none => vp1
        | [] => vp1
      else vp1
    let pages :=
      if w.bib_data.first_page ≠ "" ∧ w.bib_data.last_page ≠ "" then
        w.bib_data.first_page ++ "--" ++ w.bib_data.last_page
      else w.bib_data.first_page
    let btype := map_work_type w.type
    match generate_key authors w.publication_year w.title with
    | Option.none => Option.none
    | Option.some key =>
      let lines :=
        ["@" ++ btype ++ "\x7b" ++ key ++ ","] ++
        ["  title=\x7b" ++ w.title ++ "\x7d,"] ++
        ["  author=\x7b" ++ joinWith " and " authors ++ "\x7d,"] ++
        (match w.publication_year with
         | Option.some y => if y ≠ 0 then ["  year=\x7b" ++ intStr y ++ "\x7d,"] else []
         | Option.none => []) ++
        (if doiStr ≠ "" then ["  doi=\x7b" ++ doiStr ++ "\x7d,"] else []) ++
        (if vp.1 ≠ "" then
          (if btype = "article" then ["  journal=\x7b" ++ vp.1 ++ "\x7d,"]
           else if btype = "inproceedings" ∨ btype = "conference" then
             ["  booktitle=\x7b" ++ vp.1 ++ "\x7d,"]
           else [])
         else []) ++
        (if vp.2 ≠ "" then ["  publisher=\x7b" ++ vp.2 ++ "\x7d,"] else []) ++
        (if pages ≠ "" then ["  pages=\x7b" ++ pages ++ "\x7d,"] else []) ++
        (if w.bib_data.volume ≠ "" then
          ["  volume=\x7b" ++ w.bib_data.volume ++ "\x7d,"] else []) ++
        (if w.bib_data.issue ≠ "" then
          ["  number=\x7b" ++ w.bib_data.issue ++ "\x7d,"] else []) ++
        ["\x7d"]
      Option.some (joinWith "\n" lines)

/-- The title-search selection of `OpenAlexScraper.search_paper`: given the
works the API returned, the best match is used when `_find_best_match`
accepts one, otherwise the first returned work is used as fallback; the
result is that work's generated BibTeX (absent only when the list is empty
or BibTeX generation fails). -/
def search_paper_title (works : List Work) (title : String) (year : Option Int) :
    Option String :=
  match works with
  | [] => Option.none
  | w :: _ => generate_bibtex_from_work ((find_best_match works title year).getD w)

end OpenAlexScraper

namespace OpenAlexScraper

/-- Invariant of the best-candidate fold: whenever the accumulator holds a
work, its recorded score is that work's score. -/
theorem fbm_fold_invariant (title : String) (year : Option Int) :
    ∀ (l : List Work) (acc : Option Work × ℚ),
      (∀ v, acc.1 = Option.some v → work_score title year v = acc.2) →
      ∀ v, (l.foldl (fbmStep title year) acc).1 = Option.some v →
        work_score title year v = (l.foldl (fbmStep title year) acc).2
  | [], acc, hacc, v, hv => hacc v hv
  | x :: xs, acc, hacc, v, hv => by
    rw [List.foldl_cons] at hv ⊢
    refine fbm_fold_invariant title year xs (fbmStep title year acc x) ?_ v hv
    intro u hu
    unfold fbmStep at hu ⊢
    by_cases hc : acc.2 < work_score title year x
    · simp only [hc, if_true] at hu ⊢
      rw [(by simpa using hu : x = u)]
    · simp only [hc, if_false] at hu ⊢
      exact hacc u hu

/-- A work accepted by `_find_best_match` really scores above 0.6. -/
theorem find_best_match_confident (works : List Work) (title : String)
    (year : Option Int) (w : Work)
    (h : find_best_match works title year = Option.some w) :
    (6 : ℚ)/10 < work_score title year w := by
  unfold find_best_match at h
  by_cases hc : (6 : ℚ)/10 <
      (works.foldl (fbmStep title year) (Option.none, 0)).2
  · simp only [hc, if_true] at h
    rw [fbm_fold_invariant title year works (Option.none, 0)
      (by intro v hv; cases hv) w h]
    exact hc
  · simp [hc] at h

/-- The score of the exact-match example: similarity 1, no year. -/
theorem work_score_abc_abc :
    work_score "abc" Option.none
      ⟨"abc", [], Option.none, Option.none, Option.none, "article", [],
        ⟨"", "", "", ""⟩⟩ = 4/5 := by
  have hM : sm_matching_total (pyLower "abc").data (pyLower "abc").data = 3 := by
    decide
  have hl : (pyLower "abc").data.length = 3 := by decide
  unfold work_score sm_similarity
  rw [hM, hl]
  norm_num [year_score]

/-- The score of the disjoint-titles example: similarity 0, no year. -/
theorem work_score_abc_zzzz :
    work_score "abc" Option.none
      ⟨"zzzz", [], Option.none, Option.none, Option.none, "article", [],
        ⟨"", "", "", ""⟩⟩ = 0 := by
  have hM : sm_matching_total (pyLower "abc").data (pyLower "zzzz").data = 0 := by
    decide
  have hl1 : (pyLower "abc").data.length = 3 := by decide
  have hl2 : (pyLower "zzzz").data.length = 4 := by decide
  unfold work_score sm_similarity
  rw [hM, hl1, hl2]
  norm_num [year_score]

/-- The score of the counterexample query: similarity 0, no year. -/
theorem work_score_aaaa_zzzz :
    work_score "aaaa" Option.none
      ⟨"zzzz", [], Option.none, Option.none, Option.none, "article", [],
        ⟨"", "", "", ""⟩⟩ = 0 := by
  have hM : sm_matching_total (pyLower "aaaa").data (pyLower "zzzz").data = 0 := by
    decide
  have hl1 : (pyLower "aaaa").data.length = 4 := by decide
  have hl2 : (pyLower "zzzz").data.length = 4 := by decide
  unfold work_score sm_similarity
  rw [hM, hl1, hl2]
  norm_num [year_score]

end OpenAlexScraper

/-- Claim C1 (amended): `_find_best_match` accepts a best-scoring candidate
only if its score exceeds 0.6; but when no candidate clears the threshold,
`search_paper` does not return absent — it falls back to the first
returned work and generates its BibTeX (absent arises only from an empty
result list or failed BibTeX generation). -/
theorem openalex_search_threshold (title : String) (year : Option Int)
    (works ws : List OpenAlexScraper.Work) (w w0 : OpenAlexScraper.Work)
    (h1 : OpenAlexScraper.find_best_match works title year = Option.some w)
    (h2 : OpenAlexScraper.find_best_match (w0 :: ws) title year = Option.none) :
    (6 : ℚ)/10 < OpenAlexScraper.work_score title year w ∧
    OpenAlexScraper.search_paper_title (w0 :: ws) title year =
      OpenAlexScraper.generate_bibtex_from_work w0 := by
  constructor
  · exact OpenAlexScraper.find_best_match_confident works title year w h1
  · simp [OpenAlexScraper.search_paper_title, h2]

/-- Witness for C1 (amended): an exact title match scores 0.8 > 0.6 and is
accepted; a list whose only work scores 0 falls back to that first work's
BibTeX. -/
theorem openalex_search_threshold_witness :
    (6 : ℚ)/10 < OpenAlexScraper.work_score "abc" Option.none
      ⟨"abc", [], Option.none, Option.none, Option.none, "article", [],
        ⟨"", "", "", ""⟩⟩ ∧
    OpenAlexScraper.search_paper_title
        [⟨"zzzz", [], Option.none, Option.none, Option.none, "article", [],
          ⟨"", "", "", ""⟩⟩] "abc" Option.none =
      OpenAlexScraper.generate_bibtex_from_work
        ⟨"zzzz", [], Option.none, Option.none, Option.none, "article", [],
          ⟨"", "", "", ""⟩⟩ :=
  openalex_search_threshold "abc" Option.none
    [⟨"abc", [], Option.none, Option.none, Option.none, "article", [], ⟨"", "", "", ""⟩⟩]
    []
    ⟨"abc", [], Option.none, Option.none, Option.none, "article", [], ⟨"", "", "", ""⟩⟩
    ⟨"zzzz", [], Option.none, Option.none, Option.none, "article", [], ⟨"", "", "", ""⟩⟩
    (by
      have hsc : OpenAlexScraper.work_score "abc" Option.none
          ⟨"abc", [], Option.none, Option.none, Option.none, "article", [],
            ⟨"", "", "", ""⟩⟩ = 4/5 := OpenAlexScraper.work_score_abc_abc
      unfold OpenAlexScraper.find_best_match
      simp only [List.foldl_cons, List.foldl_nil]
      unfold OpenAlexScraper.fbmStep
      rw [hsc]
      norm_num)
    (by
      have hsc : OpenAlexScraper.work_score "abc" Option.none
          ⟨"zzzz", [], Option.none, Option.none, Option.none, "article", [],
            ⟨"", "", "", ""⟩⟩ = 0 := OpenAlexScraper.work_score_abc_zzzz
      unfold OpenAlexScraper.find_best_match
      simp only [List.foldl_cons, List.foldl_nil]
      unfold OpenAlexScraper.fbmStep
      rw [hsc]
      norm_num)

/-- Claim C1 counterexample: for the query title `"aaaa"` and a single
returned work titled `"zzzz"` (match score 0 ≤ 0.6), `search_paper` does
not return absent: it falls back to the first work and returns its
BibTeX. -/
theorem openalex_search_threshold_counterexample :
    OpenAlexScraper.search_paper_title
        [⟨"zzzz", [], Option.none, Option.none, Option.none, "article", [],
          ⟨"", "", "", ""⟩⟩] "aaaa" Option.none ≠ Option.none ∧
    OpenAlexScraper.work_score "aaaa" Option.none
        ⟨"zzzz", [], Option.none, Option.none, Option.none, "article", [],
          ⟨"", "", "", ""⟩⟩ ≤ (6 : ℚ)/10 := by
  have hfb : OpenAlexScraper.find_best_match
      [⟨"zzzz", [], Option.none, Option.none, Option.none, "article", [],
        ⟨"", "", "", ""⟩⟩] "aaaa" Option.none = Option.none := by
    unfold OpenAlexScraper.find_best_match
    simp only [List.foldl_cons, List.foldl_nil]
    unfold OpenAlexScraper.fbmStep
    rw [OpenAlexScraper.work_score_aaaa_zzzz]
    norm_num
  constructor
  · simp only [OpenAlexScraper.search_paper_title, hfb, Option.getD_none]
    decide
  · rw [OpenAlexScraper.work_score_aaaa_zzzz]
    norm_num

/-- Claim C8 counterexample: in the Crossref scorer of
`DOIEnricher._find_best_match`, a candidate published one year before the
query year (2022 vs "2023") receives year score 0, not the claimed 1.0:
that call site awards the year point only on exact string equality. -/
theorem year_proximity_counterexample :
    DOIEnricher.crossref_year_score (Option.some "2023") (Option.some 2022) = 0 ∧
    DOIEnricher.crossref_year_score (Option.some "2023") (Option.some 2022) ≠ 1 := by
  constructor
  · rfl
  · intro h
    have h0 : DOIEnricher.crossref_year_score (Option.some "2023")
        (Option.some 2022) = 0 := rfl
    rw [h0] at h
    exact absurd h (by norm_num)

/-- Claim C8 (amended): the ±1-year proximity rule holds only in
`OpenAlexScraper._find_best_match` (year score 1 iff both years are truthy
and differ by at most one, else 0); the two `DOIEnricher` scorers instead
award the year point iff the target year string is non-empty and equals
the candidate's year rendered as a string, else 0. -/
theorem year_proximity_scores (ty wy : Option Int) (ts : Option String)
    (iy wy2 : Option Int) :
    (OpenAlexScraper.year_score ty wy = 1 ↔
      ∃ t w, ty = Option.some t ∧ wy = Option.some w ∧
        t ≠ 0 ∧ w ≠ 0 ∧ (w - t).natAbs ≤ 1) ∧
    (OpenAlexScraper.year_score ty wy = 1 ∨ OpenAlexScraper.year_score ty wy = 0) ∧
    (DOIEnricher.crossref_year_score ts iy = 1 ↔
      ∃ t, ts = Option.some t ∧ t ≠ "" ∧ DOIEnricher.crossref_year_str iy = t) ∧
    (DOIEnricher.crossref_year_score ts iy = 1 ∨
      DOIEnricher.crossref_year_score ts iy = 0) ∧
    (DOIEnricher.openalex_year_score ts wy2 = 1 ↔
      ∃ t, ts = Option.some t ∧ t ≠ "" ∧ DOIEnricher.openalex_year_str wy2 = t) ∧
    (DOIEnricher.openalex_year_score ts wy2 = 1 ∨
      DOIEnricher.openalex_year_score ts wy2 = 0) ∧
    OpenAlexScraper.year_score (Option.some 2023) (Option.some 2022) = 1 := by
  refine ⟨?_, ?_, ?_, ?_, ?_, ?_, by norm_num [OpenAlexScraper.year_score]⟩
  · cases ty with
    | none => simp [OpenAlexScraper.year_score]
    | some t =>
      cases wy with
      | none => simp [OpenAlexScraper.year_score]
      | some w =>
        by_cases hc : t ≠ 0 ∧ w ≠ 0 ∧ (w - t).natAbs ≤ 1
        · simp [OpenAlexScraper.year_score, hc]
        · simp only [OpenAlexScraper.year_score, hc, if_false]
          constructor
          · intro h
            exact absurd h (by norm_num)
          · rintro ⟨t', w', ht', hw', h1, h2, h3⟩
            cases ht'
            cases hw'
            exact absurd ⟨h1, h2, h3⟩ hc
  · cases ty with
    | none => simp [OpenAlexScraper.year_score]
    | some t =>
      cases wy with
      | none => simp [OpenAlexScraper.year_score]
      | some w =>
        by_cases hc : t ≠ 0 ∧ w ≠ 0 ∧ (w - t).natAbs ≤ 1 <;>
          simp [OpenAlexScraper.year_score, hc]
  · cases ts with
    | none => simp [DOIEnricher.crossref_year_score]
    | some t =>
      by_cases he : t = ""
      · subst he
        simp [DOIEnricher.crossref_year_score]
      · by_cases hc : DOIEnricher.crossref_year_str iy = t
        · simp [DOIEnricher.crossref_year_score, he, hc]
        · simp only [DOIEnricher.crossref_year_score, he, hc, ne_eq,
            not_false_iff, if_true, if_false]
          constructor
          · intro h
            exact absurd h (by norm_num)
          · rintro ⟨t', ht', _, h3⟩
            cases ht'
            exact absurd h3 hc
  · cases ts with
    | none => simp [DOIEnricher.crossref_year_score]
    | some t =>
      by_cases he : t = ""
      · subst he
        simp [DOIEnricher.crossref_year_score]
      · by_cases hc : DOIEnricher.crossref_year_str iy = t <;>
          simp [DOIEnricher.crossref_year_score, he, hc]
  · cases ts with
    | none => simp [DOIEnricher.openalex_year_score]
    | some t =>
      by_cases he : t = ""
      · subst he
        simp [DOIEnricher.openalex_year_score]
      · by_cases hc : DOIEnricher.openalex_year_str wy2 = t
        · simp [DOIEnricher.openalex_year_score, he, hc]
        · simp only [DOIEnricher.openalex_year_score, he, hc, ne_eq,
            not_false_iff, if_true, if_false]
          constructor
          · intro h
            exact absurd h (by norm_num)
          · rintro ⟨t', ht', _, h3⟩
            cases ht'
            exact absurd h3 hc
  · cases ts with
    | none => simp [DOIEnricher.openalex_year_score]
    | some t =>
      by_cases he : t = ""
      · subst he
        simp [DOIEnricher.openalex_year_score]
      · by_cases hc : DOIEnricher.openalex_year_str wy2 = t <;>
          simp [DOIEnricher.openalex_year_score, he, hc]
